import Mathlib

/-!
Verification of the rota-generator scheduling core (`src/app.py`, function
`solve_Rota`) against its natural-language specification.

The solver builds a CP-SAT model with one boolean variable per
(employee doc_id, day, shift) triple, posts the hard constraints, maximizes a
linear objective, and — when the backend reports Optimal or Feasible — decodes
the valuation into a schedule.  We embed the data model, the calendar, the
request compiler, the constraint set and the objective as executable Lean
definitions, and treat the CP-SAT backend as an oracle
`solver : RotaInstance → Option Assignment` together with the soundness fact
that any assignment it returns satisfies every posted constraint (which is
exactly what an Optimal/Feasible status certifies).
-/

/-! ## Calendar (mirrors `datetime.strftime` usage in `solve_Rota`)

Dates are represented by their day count since 1970-01-01.  `dateStr` renders
the `%Y-%m-%d` format and `weekdayName` the `%A` format. -/

/-- Days-since-epoch to (year, month, day), the standard civil-from-days
algorithm with C-style truncated division. -/
def civilFromDays (z0 : Int) : Int × Int × Int :=
  let z := z0 + 719468
  let era : Int := (if 0 ≤ z then z else z - 146096).tdiv 146097
  let doe : Int := z - era * 146097
  let yoe : Int := (doe - doe.tdiv 1460 + doe.tdiv 36524 - doe.tdiv 146096).tdiv 365
  let y : Int := yoe + era * 400
  let doy : Int := doe - (365 * yoe + yoe.tdiv 4 - yoe.tdiv 100)
  let mp : Int := (5 * doy + 2).tdiv 153
  let d : Int := doy - (153 * mp + 2).tdiv 5 + 1
  let m : Int := mp + (if mp < 10 then 3 else (-9))
  (y + (if m ≤ 2 then 1 else 0), m, d)

/-- Zero-pad to two digits, as `%m` / `%d` do. -/
def pad2 (n : Nat) : String := if n < 10 then "0" ++ toString n else toString n

/-- `strftime("%Y-%m-%d")` for a days-since-epoch value. -/
def dateStr (z : Int) : String :=
  match civilFromDays z with
  | (y, m, d) => toString y ++ "-" ++ pad2 m.toNat ++ "-" ++ pad2 d.toNat

/-- `strftime("%A")` for a days-since-epoch value (day 0 = 1970-01-01 was a
Thursday). -/
def weekdayName (z : Int) : String :=
  (["Thursday", "Friday", "Saturday", "Sunday", "Monday", "Tuesday", "Wednesday"]).getD
    (z.emod 7).toNat ""

/-- Keys of the `weekday_to_day_indices` dict, which is initialized with all
seven weekday names (so membership tests check the name, not occupancy). -/
def WEEKDAY_KEYS : List String :=
  ["Monday", "Tuesday", "Wednesday", "Thursday", "Friday", "Saturday", "Sunday"]

/-- `date_to_day_idx`: association list mapping the date string of each day of
the period to its day index. -/
def dateToDayIdx (start : Int) (numDays : Nat) : List (String × Nat) :=
  (List.range numDays).map (fun (d : Nat) => (dateStr (start + Int.ofNat d), d))

/-- `weekday_to_day_indices[w]`: the day indices of the period falling on the
named weekday. -/
def weekdayToDayIndices (start : Int) (numDays : Nat) (w : String) : List Nat :=
  (List.range numDays).filter (fun (d : Nat) => weekdayName (start + Int.ofNat d) == w)

/-! ## Shift catalog (the `Definitions` block of `solve_Rota`) -/

/-- `SHIFT_INDICES = list(range(5))`. -/
def SHIFT_INDICES : List Nat := List.range 5

/-- `FLEX_SHIFTS = [3, 4]`. -/
def FLEX_SHIFTS : List Nat := [3, 4]

/-- `SHIFT_HOURS = {0: 7.5, 1: 8.5, 2: 8.0, 3: 4.0, 4: 4.0}` (exact rationals;
all these values are exactly representable binary floats, so rational
arithmetic coincides with the Python float arithmetic on them). -/
def SHIFT_HOURS (k : Nat) : ℚ :=
  match k with
  | 0 => mkRat 15 2
  | 1 => mkRat 17 2
  | 2 => 8
  | 3 => 4
  | 4 => 4
  | _ => 0

/-- Python `int(...)` on an exact rational: truncation toward zero (the
numerator of the normalized fraction divided by its positive denominator,
rounding toward zero).  `pyInt_eq_ratTrunc` below characterizes it. -/
def pyInt (q : ℚ) : ℤ := q.num.tdiv q.den

/-- Truncation toward zero of a rational, written with floors. -/
def ratTrunc (q : ℚ) : ℤ := if 0 ≤ q then ⌊q⌋ else -⌊-q⌋

/-- `int(x * 10)` computed on the fraction representation (truncated division
of `10·num` by `den`).  Truncation toward zero only depends on the value of the
fraction, so this equals `pyInt (q * 10)` — proved in `int10_eq` — while
remaining kernel-reducible. -/
def int10 (q : ℚ) : ℤ := (q.num * 10).tdiv q.den

/-- `SHIFT_HOURS_SCALED = {k: int(v * 10) for k, v in SHIFT_HOURS.items()}`. -/
def SHIFT_HOURS_SCALED (k : Nat) : ℤ := int10 (SHIFT_HOURS k)

/-- `SHIFT_NAMES_MAP` (request shift names, with spaces). -/
def SHIFT_NAMES_MAP : List (String × Nat) :=
  [("Opening", 0), ("Middle", 1), ("Closing", 2), ("Peak Lunch", 3), ("Peak Dinner", 4)]

/-- `PREF_MAP` (preference shift names, with underscores). -/
def PREF_MAP : List (String × Nat) :=
  [("Opening", 0), ("Middle", 1), ("Closing", 2), ("Peak_Lunch", 3), ("Peak_Dinner", 4)]

/-! ## Data model -/

/-- An employee record as `solve_Rota` reads it.  `doc_id`, `name`, `role` and
`max_hours` are accessed unconditionally (`s.doc_id`, `s['name']`, `s['role']`,
`s['max_hours']`); `flexible_hours` and `preferred_shifts` are read with
`s.get(..., default)` and so may be absent, which we model with `Option`. -/
structure Staff where
  doc_id : Nat
  name : String
  role : String
  max_hours : ℚ
  flexible_hours : Option Bool
  preferred_shifts : Option (List String)
deriving DecidableEq

/-- A raw scheduling request record. -/
structure Request where
  staff_name : String
  request_type : String
  value : String
deriving DecidableEq

/-- The arguments of one `solve_Rota` call. -/
structure RotaInstance where
  staff_list : List Staff
  num_days : Nat
  closing_shift_counts : List ℤ
  daily_budgets : List ℚ
  start_date : Int
  requests_list : List Request

/-- A valuation of the boolean decision variables `shifts[(doc_id, d, sh)]`. -/
def Assignment : Type := Nat → Nat → Nat → Bool

/-! ## Request compilation (the `User Requests (Hard Rules)` block) -/

/-- The two shapes of constraint a request can post: `ForceOffDay` is
`model.Add(sum(shifts[(s_id, d, sh)] for sh in SHIFT_INDICES) == 0)` and
`ForceOn` is `model.Add(shifts[(s_id, d, sh_idx)] == 1)`. -/
inductive ReqConstraint where
  | forceOffDay (sid : Nat) (d : Nat)
  | forceOn (sid : Nat) (d : Nat) (sh : Nat)
deriving DecidableEq

/-- The employee doc_id a compiled constraint is bound to. -/
def ReqConstraint.sid : ReqConstraint → Nat
  | .forceOffDay i _ => i
  | .forceOn i _ _ => i

/-- Split a character list at every (non-overlapping, leftmost-first)
occurrence of the three-character separator `" | "`; the semantics of
`val.split(" | ")` in Python. -/
def splitOnBar : List Char → List (List Char)
  | ' ' :: '|' :: ' ' :: rest => [] :: splitOnBar rest
  | c :: rest =>
    match splitOnBar rest with
    | t :: ts => (c :: t) :: ts
    | [] => [[c]]
  | [] => [[]]

/-- `date_part, shift_name = val.split(" | ")`: succeeds exactly when the split
yields two parts, otherwise the `ValueError` is caught and the request is
ignored. -/
def parseTwo (val : String) : Option (String × String) :=
  match splitOnBar val.data with
  | [a, b] => some (String.mk a, String.mk b)
  | _ => none

/-- Compilation of one raw request into model constraints, mirroring the
request loop of `solve_Rota`: resolve the staff name to the first matching
employee (`next(..., None)`), then dispatch on `request_type`; any lookup or
parse failure contributes no constraint. -/
def compileRequest (staff_list : List Staff) (start : Int) (numDays : Nat)
    (req : Request) : List ReqConstraint :=
  match staff_list.find? (fun s => s.name == req.staff_name) with
  | none => []
  | some staff_obj =>
    let s_id := staff_obj.doc_id
    if req.request_type == "OFF_SPECIFIC_DATE" then
      match (dateToDayIdx start numDays).lookup req.value with
      | some d => [.forceOffDay s_id d]
      | none => []
    else if req.request_type == "OFF_RECURRING_DAY" then
      if WEEKDAY_KEYS.contains req.value then
        (weekdayToDayIndices start numDays req.value).map (.forceOffDay s_id)
      else []
    else if req.request_type == "WORK_SPECIFIC_SHIFT" then
      match parseTwo req.value with
      | some (date_part, shift_name) =>
        match (dateToDayIdx start numDays).lookup date_part,
              SHIFT_NAMES_MAP.lookup shift_name with
        | some d, some sh_idx => [.forceOn s_id d sh_idx]
        | _, _ => []
      | none => []
    else if req.request_type == "WORK_RECURRING_SHIFT" then
      match parseTwo req.value with
      | some (day_name, shift_name) =>
        if WEEKDAY_KEYS.contains day_name then
          match SHIFT_NAMES_MAP.lookup shift_name with
          | some sh_idx => (weekdayToDayIndices start numDays day_name).map
              (fun d => .forceOn s_id d sh_idx)
          | none => []
        else []
      | none => []
    else []

/-! ## The constraint model -/

/-- 0/1 value of one decision variable. -/
def ind (a : Assignment) (sid d sh : Nat) : ℤ := if a sid d sh then 1 else 0

/-- `sum(shifts[(s.doc_id, d, sh)] for s in staff_list)` for one shift. -/
def shiftCount (staff : List Staff) (a : Assignment) (d sh : Nat) : ℤ :=
  (staff.map (fun s => ind a s.doc_id d sh)).sum

/-- Coverage sum over a set of shift indices
(`sum(... for s in staff_list for sh in shs)`). -/
def coverSum (staff : List Staff) (a : Assignment) (d : Nat) (shs : List Nat) : ℤ :=
  (staff.map (fun s => (shs.map (fun sh => ind a s.doc_id d sh)).sum)).sum

/-- `manager_ids = [s.doc_id for s in staff_list if s['role'] in ['Manager',
'General Manager']]`. -/
def manager_ids (staff : List Staff) : List Nat :=
  (staff.filter (fun s => s.role == "Manager" || s.role == "General Manager")).map
    (fun s => s.doc_id)

/-- Manager coverage sum for one shift. -/
def mgrCount (staff : List Staff) (a : Assignment) (d sh : Nat) : ℤ :=
  ((manager_ids staff).map (fun m => ind a m d sh)).sum

/-- `daily_cost_scaled`: scaled duration-weighted sum over all non-General
Manager employees and all shifts of a day. -/
def dailyCostScaled (staff : List Staff) (a : Assignment) (d : Nat) : ℤ :=
  ((staff.filter (fun s => !(s.role == "General Manager"))).map
    (fun s => (SHIFT_INDICES.map
      (fun sh => if a s.doc_id d sh then SHIFT_HOURS_SCALED sh else 0)).sum)).sum

/-- Number of shifts an employee holds on one day
(`sum(shifts[(s.doc_id, d, sh)] for sh in SHIFT_INDICES)`). -/
def oneShiftCount (a : Assignment) (sid d : Nat) : ℤ :=
  (SHIFT_INDICES.map (fun sh => ind a sid d sh)).sum

/-- `total_hours_scaled`: scaled duration sum of one employee over the whole
period. -/
def totalHoursScaled (a : Assignment) (sid : Nat) (numDays : Nat) : ℤ :=
  ((List.range numDays).map (fun d => (SHIFT_INDICES.map
    (fun sh => if a sid d sh then SHIFT_HOURS_SCALED sh else 0)).sum)).sum

/-- Truth of one compiled request constraint under a valuation. -/
def holdsReqC (a : Assignment) : ReqConstraint → Prop
  | .forceOffDay sid d => oneShiftCount a sid d = 0
  | .forceOn sid d sh => a sid d sh = true

instance (a : Assignment) (c : ReqConstraint) : Decidable (holdsReqC a c) := by
  cases c <;> simp [holdsReqC] <;> infer_instance

/-- All hard constraints `solve_Rota` posts on the CP-SAT model, in source
order: compiled user requests, the per-day block (headcounts, peak-window
coverage, manager coverage, daily budget), and the per-staff block
(flex-eligibility, one shift per day, max weekly hours, clopening). -/
def SatisfiesModel (inst : RotaInstance) (a : Assignment) : Prop :=
  (∀ c ∈ inst.requests_list.flatMap
      (compileRequest inst.staff_list inst.start_date inst.num_days),
    holdsReqC a c)
  ∧ (∀ d < inst.num_days,
      shiftCount inst.staff_list a d 0 = 3
      ∧ shiftCount inst.staff_list a d 1 = 2
      ∧ shiftCount inst.staff_list a d 2 = inst.closing_shift_counts.getD (d % 7) 0
      ∧ 5 ≤ coverSum inst.staff_list a d [0, 1, 3]
      ∧ 5 ≤ coverSum inst.staff_list a d [1, 2, 4]
      ∧ 1 ≤ mgrCount inst.staff_list a d 0
      ∧ 1 ≤ mgrCount inst.staff_list a d 2
      ∧ dailyCostScaled inst.staff_list a d
          ≤ int10 (inst.daily_budgets.getD (d % 7) 0))
  ∧ (∀ s ∈ inst.staff_list,
      (s.flexible_hours.getD false = false →
        ∀ d < inst.num_days, ∀ sh ∈ FLEX_SHIFTS, a s.doc_id d sh = false)
      ∧ (∀ d < inst.num_days, oneShiftCount a s.doc_id d ≤ 1)
      ∧ totalHoursScaled a s.doc_id inst.num_days ≤ int10 s.max_hours
      ∧ (∀ d < inst.num_days - 1, ind a s.doc_id d 2 + ind a s.doc_id (d + 1) 0 ≤ 1))

instance (inst : RotaInstance) (a : Assignment) : Decidable (SatisfiesModel inst a) := by
  unfold SatisfiesModel; infer_instance

/-! ## Objective and driver -/

/-- `obj_hours`: scaled duration of every assigned shift. -/
def obj_hours (staff : List Staff) (numDays : Nat) (a : Assignment) : ℤ :=
  (staff.map (fun s => totalHoursScaled a s.doc_id numDays)).sum

/-- One employee's contribution to `obj_prefs`: for each entry of the
`preferred_shifts` list (default `[]`) that `PREF_MAP` recognizes, the number
of days the employee is assigned that shift. -/
def objPrefsFor (numDays : Nat) (a : Assignment) (s : Staff) : ℤ :=
  ((s.preferred_shifts.getD []).map (fun p =>
    match PREF_MAP.lookup p with
    | some p_idx => ((List.range numDays).map (fun d => ind a s.doc_id d p_idx)).sum
    | none => 0)).sum

/-- `obj_prefs` over the whole staff list. -/
def obj_prefs (staff : List Staff) (numDays : Nat) (a : Assignment) : ℤ :=
  (staff.map (objPrefsFor numDays a)).sum

/-- The maximized quantity `obj_hours + (obj_prefs * 20)`. -/
def objective (staff : List Staff) (numDays : Nat) (a : Assignment) : ℤ :=
  obj_hours staff numDays a + obj_prefs staff numDays a * 20

/-- `solve_Rota`, with the CP-SAT backend abstracted as an oracle producing a
variable valuation (Optimal/Feasible) or nothing (Infeasible/Unknown): on a
valuation it returns the decoded schedule data together with
`solver.ObjectiveValue()`, otherwise `none` (the Python `return None, 0`). -/
def solve_Rota (solver : RotaInstance → Option Assignment) (inst : RotaInstance) :
    Option (Assignment × ℤ) :=
  match solver inst with
  | some a => some (a, objective inst.staff_list inst.num_days a)
  | none => none

/-! ## Claim-side definitions

These definitions follow the wording of the specification sentences under
check, to be compared against the definitions translated from the source. -/

/-- The quantity named by the spec's budget invariant: the (unscaled) sum of
shift durations, in hours, over all assigned employees whose role is not
General Manager, on one day. -/
def dailyCostHours (staff : List Staff) (a : Assignment) (d : Nat) : ℚ :=
  ((staff.filter (fun s => !(s.role == "General Manager"))).map
    (fun s => (SHIFT_INDICES.map
      (fun sh => if a s.doc_id d sh then SHIFT_HOURS sh else 0)).sum)).sum

/-- The preference bonus as the spec words it: for every employee and day, the
number of assigned shifts whose type appears in that employee's preferred
shift types (membership, i.e. set semantics). -/
def prefBonusSpec (staff : List Staff) (numDays : Nat) (a : Assignment) : ℤ :=
  (staff.map (fun s => ((List.range numDays).map (fun d =>
    ((SHIFT_INDICES.filter (fun sh => a s.doc_id d sh
      && (s.preferred_shifts.getD []).any
        (fun p => PREF_MAP.lookup p == some sh))).length : ℤ))).sum)).sum

/-- The objective as the spec words it: sum over (employee, day, shift) of
`assignedVariable × (10 × shift duration in hours)`, plus `20 ×` the
set-semantics preference bonus. -/
def objectiveSpec (staff : List Staff) (numDays : Nat) (a : Assignment) : ℚ :=
  (staff.map (fun s => ((List.range numDays).map (fun d =>
    (SHIFT_INDICES.map (fun sh =>
      (ind a s.doc_id d sh : ℚ) * (10 * SHIFT_HOURS sh))).sum)).sum)).sum
  + 20 * (prefBonusSpec staff numDays a : ℚ)

/-- The lenient-compilation failure cases named by the spec: a request naming
an employee absent from the staff list, a value that does not parse into the
expected shape (wrong delimiter count, unrecognized weekday or shift name), or
a specific date falling outside the period. -/
def isBadRequest (staff : List Staff) (start : Int) (numDays : Nat) (r : Request) : Bool :=
  (staff.find? (fun s => s.name == r.staff_name)).isNone
  || (r.request_type == "OFF_SPECIFIC_DATE"
      && ((dateToDayIdx start numDays).lookup r.value).isNone)
  || (r.request_type == "OFF_RECURRING_DAY" && !(WEEKDAY_KEYS.contains r.value))
  || (r.request_type == "WORK_SPECIFIC_SHIFT"
      && (match parseTwo r.value with
          | none => true
          | some (dp, sn) => ((dateToDayIdx start numDays).lookup dp).isNone
              || (SHIFT_NAMES_MAP.lookup sn).isNone))
  || (r.request_type == "WORK_RECURRING_SHIFT"
      && (match parseTwo r.value with
          | none => true
          | some (dn, sn) => !(WEEKDAY_KEYS.contains dn)
              || (SHIFT_NAMES_MAP.lookup sn).isNone))

/-! ## Concrete instances used for witnesses and counterexamples -/
/-! ## Concrete instances used as witnesses -/

/-- An eight-employee roster: two managers and six staff, all full-time. -/
def wStaff : List Staff :=
  [⟨1, "Ana", "Manager", 40, some false, some ["Opening"]⟩,
   ⟨2, "Bob", "Staff", 40, none, none⟩,
   ⟨3, "Cal", "Staff", 40, some false, some []⟩,
   ⟨4, "Dee", "Staff", 40, some false, some []⟩,
   ⟨5, "Eli", "Staff", 40, some false, some []⟩,
   ⟨6, "Fay", "Manager", 40, some false, some []⟩,
   ⟨7, "Gil", "Staff", 40, some false, some []⟩,
   ⟨8, "Hal", "Staff", 40, some false, some []⟩]

/-- A two-day valuation: employees 1–3 open, 4–5 take middle, 6–8 close, on
both days. -/
def wAssign : Assignment := fun sid d sh =>
  decide (d < 2) && ((sh == 0 && (sid == 1 || sid == 2 || sid == 3))
    || (sh == 1 && (sid == 4 || sid == 5))
    || (sh == 2 && (sid == 6 || sid == 7 || sid == 8)))

/-- A two-day instance starting 2025-12-25 (day 20447 since epoch) with one
work-specific-shift request for Ana. -/
def wInst : RotaInstance :=
  { staff_list := wStaff
    num_days := 2
    closing_shift_counts := [3, 3, 3, 3, 3, 3, 3]
    daily_budgets := [100, 100, 100, 100, 100, 100, 100]
    start_date := 20447
    requests_list := [⟨"Ana", "WORK_SPECIFIC_SHIFT", "2025-12-25 | Opening"⟩] }

theorem wSat : SatisfiesModel wInst wAssign := by decide

/-! ## Basic lemmas about the scaled arithmetic -/

theorem tdiv_eq_ratTrunc (x : ℤ) (n : ℕ) (hn : n ≠ 0) :
    x.tdiv n = ratTrunc ((x : ℚ) / (n : ℚ)) := by
  have hn0 : (0 : ℚ) < (n : ℚ) := by exact_mod_cast Nat.pos_of_ne_zero hn
  rcases le_or_lt 0 x with hx | hx
  · have hq : (0 : ℚ) ≤ (x : ℚ) / (n : ℚ) :=
      div_nonneg (by exact_mod_cast hx) hn0.le
    rw [ratTrunc, if_pos hq, Rat.floor_intCast_div_natCast,
      Int.tdiv_eq_ediv hx (by positivity)]
  · have hq : ¬ (0 : ℚ) ≤ (x : ℚ) / (n : ℚ) := by
      rw [not_le]
      exact div_neg_of_neg_of_pos (by exact_mod_cast hx) hn0
    rw [ratTrunc, if_neg hq]
    have hcast : -((x : ℚ) / (n : ℚ)) = ((-x : ℤ) : ℚ) / (n : ℚ) := by
      push_cast; ring
    rw [hcast, Rat.floor_intCast_div_natCast]
    have hneg : x.tdiv n = -((-x).tdiv n) := by rw [Int.neg_tdiv]; ring
    rw [hneg, Int.tdiv_eq_ediv (by omega) (by positivity)]

theorem pyInt_eq_ratTrunc (q : ℚ) : pyInt q = ratTrunc q := by
  rw [pyInt, tdiv_eq_ratTrunc q.num q.den q.den_nz, Rat.num_div_den]

theorem int10_eq (q : ℚ) : int10 q = pyInt (q * 10) := by
  rw [pyInt_eq_ratTrunc, int10, tdiv_eq_ratTrunc _ _ q.den_nz]
  congr 1
  push_cast
  rw [mul_div_right_comm, Rat.num_div_den]

theorem int10_le_of_nonneg (q : ℚ) (h : 0 ≤ q) : (int10 q : ℚ) ≤ q * 10 := by
  rw [int10_eq, pyInt_eq_ratTrunc, ratTrunc, if_pos (by positivity)]
  exact Int.floor_le _

theorem shift_hours_scaled_eval :
    SHIFT_INDICES.map SHIFT_HOURS_SCALED = [75, 85, 80, 40, 40] := by decide

/-! ## Lemmas about `solve_Rota` -/

theorem solve_Rota_some {solver : RotaInstance → Option Assignment}
    {inst : RotaInstance} {a : Assignment} {v : ℤ}
    (h : solve_Rota solver inst = some (a, v)) :
    solver inst = some a ∧ v = objective inst.staff_list inst.num_days a := by
  unfold solve_Rota at h
  cases hs : solver inst with
  | none => rw [hs] at h; cases h
  | some b =>
    rw [hs] at h
    have h2 := Option.some.inj h
    have hb : b = a := congrArg Prod.fst h2
    have hv : objective inst.staff_list inst.num_days b = v := congrArg Prod.snd h2
    subst hb
    subst hv
    exact ⟨rfl, rfl⟩

theorem wSat_of_ret (b : Assignment)
    (hb : (fun _ : RotaInstance => some wAssign) wInst = some b) :
    SatisfiesModel wInst b := by
  cases hb
  exact wSat

/-! ## Counting lemmas -/

theorem ind_nonneg (a : Assignment) (sid d sh : Nat) : 0 ≤ ind a sid d sh := by
  unfold ind
  split <;> omega

theorem headcount_le_oneShift (a : Assignment) (sid d : Nat) :
    ind a sid d 0 + ind a sid d 1 + ind a sid d 2 ≤ oneShiftCount a sid d := by
  have h : SHIFT_INDICES = [0, 1, 2, 3, 4] := rfl
  unfold oneShiftCount
  rw [h]
  simp only [List.map_cons, List.map_nil, List.sum_cons, List.sum_nil]
  have h3 := ind_nonneg a sid d 3
  have h4 := ind_nonneg a sid d 4
  omega

theorem headcount_sum_le (staff : List Staff) (a : Assignment) (d : Nat)
    (h1 : ∀ s ∈ staff, oneShiftCount a s.doc_id d ≤ 1) :
    shiftCount staff a d 0 + shiftCount staff a d 1 + shiftCount staff a d 2
      ≤ (staff.length : ℤ) := by
  induction staff with
  | nil => simp [shiftCount]
  | cons s t ih =>
    simp only [shiftCount, List.map_cons, List.sum_cons, List.length_cons] at *
    have hs := h1 s (List.mem_cons_self s t)
    have ht := ih (fun x hx => h1 x (List.mem_cons_of_mem _ hx))
    have h3 := headcount_le_oneShift a s.doc_id d
    push_cast
    push_cast at ht
    omega

/-! ## The claims -/

/-- C1: For every schedule returned by `solve_Rota` (status Optimal or
Feasible), for every day index `d` in `[0, numDays-1]`: exactly 3 employees
are assigned Opening, exactly 2 are assigned Middle, and exactly
`closing_shift_counts[d mod 7]` are assigned Closing. -/
theorem headcounts_of_returned_schedule (solver : RotaInstance → Option Assignment)
    (inst : RotaInstance)
    (hsound : ∀ b, solver inst = some b → SatisfiesModel inst b)
    (a : Assignment) (v : ℤ) (hret : solve_Rota solver inst = some (a, v))
    (d : Nat) (hd : d < inst.num_days) :
    shiftCount inst.staff_list a d 0 = 3
    ∧ shiftCount inst.staff_list a d 1 = 2
    ∧ shiftCount inst.staff_list a d 2 = inst.closing_shift_counts.getD (d % 7) 0 := by
  obtain ⟨hsv, -⟩ := solve_Rota_some hret
  obtain ⟨-, hday, -⟩ := hsound a hsv
  exact ⟨(hday d hd).1, (hday d hd).2.1, (hday d hd).2.2.1⟩

theorem headcounts_of_returned_schedule_witness :
    shiftCount wStaff wAssign 0 0 = 3
    ∧ shiftCount wStaff wAssign 0 1 = 2
    ∧ shiftCount wStaff wAssign 0 2 = 3 :=
  headcounts_of_returned_schedule (fun _ => some wAssign) wInst wSat_of_ret
    wAssign (objective wStaff 2 wAssign) rfl 0 (by decide)

/-- C3: For every staff list with fewer than
`3 + 2 + closing_shift_counts[d mod 7]` employees for some day `d` of the
period, `solve_Rota` returns no schedule: the per-day headcount equalities plus
the at-most-one-shift-per-employee-per-day cap make the model infeasible when
slot demand exceeds the number of employees. -/
theorem understaffed_roster_returns_none (solver : RotaInstance → Option Assignment)
    (inst : RotaInstance)
    (hsound : ∀ b, solver inst = some b → SatisfiesModel inst b)
    (d : Nat) (hd : d < inst.num_days)
    (hlen : (inst.staff_list.length : ℤ)
      < 3 + 2 + inst.closing_shift_counts.getD (d % 7) 0) :
    solve_Rota solver inst = none := by
  cases hs : solver inst with
  | none => unfold solve_Rota; rw [hs]
  | some b =>
    exfalso
    obtain ⟨-, hday, hstaff⟩ := hsound b hs
    obtain ⟨h0, h1, h2, -⟩ := hday d hd
    have hle := headcount_sum_le inst.staff_list b d
      (fun s hsm => (hstaff s hsm).2.1 d hd)
    rw [h0, h1, h2] at hle
    omega

/-- A five-employee roster over one day against closing headcount 3; demand is
3 + 2 + 3 = 8 slots. -/
def w3Inst : RotaInstance :=
  { staff_list :=
      [⟨1, "Ana", "Manager", 40, some false, some []⟩,
       ⟨2, "Bob", "Staff", 40, some false, some []⟩,
       ⟨3, "Cal", "Staff", 40, some false, some []⟩,
       ⟨4, "Dee", "Staff", 40, some false, some []⟩,
       ⟨5, "Eli", "Staff", 40, some false, some []⟩]
    num_days := 1
    closing_shift_counts := [3, 3, 3, 3, 3, 3, 3]
    daily_budgets := [100, 100, 100, 100, 100, 100, 100]
    start_date := 20447
    requests_list := [] }

theorem understaffed_roster_returns_none_witness :
    solve_Rota (fun _ => none) w3Inst = none :=
  understaffed_roster_returns_none (fun _ => none) w3Inst
    (fun b hb => nomatch hb) 0 (by decide) (by decide)

/-- C7: For every schedule returned by `solve_Rota`, for every employee: the
sum of assigned shift durations over the whole period is at most that
employee's `max_hours`, the comparison being performed in exact integer
arithmetic after scaling each duration by 10 (durations 75, 85, 80, 40, 40
tenths of an hour) against `int(max_hours * 10)`. -/
theorem max_hours_scaled_bound (solver : RotaInstance → Option Assignment)
    (inst : RotaInstance)
    (hsound : ∀ b, solver inst = some b → SatisfiesModel inst b)
    (a : Assignment) (v : ℤ) (hret : solve_Rota solver inst = some (a, v))
    (s : Staff) (hs : s ∈ inst.staff_list) :
    totalHoursScaled a s.doc_id inst.num_days ≤ pyInt (s.max_hours * 10)
    ∧ SHIFT_INDICES.map SHIFT_HOURS_SCALED = [75, 85, 80, 40, 40] := by
  obtain ⟨hsv, -⟩ := solve_Rota_some hret
  have h := ((hsound a hsv).2.2 s hs).2.2.1
  rw [int10_eq] at h
  exact ⟨h, shift_hours_scaled_eval⟩

theorem max_hours_scaled_bound_witness :
    totalHoursScaled wAssign 1 2 ≤ pyInt ((40 : ℚ) * 10)
    ∧ SHIFT_INDICES.map SHIFT_HOURS_SCALED = [75, 85, 80, 40, 40] :=
  max_hours_scaled_bound (fun _ => some wAssign) wInst wSat_of_ret
    wAssign (objective wStaff 2 wAssign) rfl
    ⟨1, "Ana", "Manager", 40, some false, some ["Opening"]⟩ (by decide)

/-- C8: For every schedule returned by `solve_Rota`, for every employee and
every day `d` with `d + 1` still inside the period: the employee is never
assigned both Closing on day `d` and Opening on day `d + 1` (the clopening
rule holds in every accepted solution). -/
theorem no_clopening (solver : RotaInstance → Option Assignment)
    (inst : RotaInstance)
    (hsound : ∀ b, solver inst = some b → SatisfiesModel inst b)
    (a : Assignment) (v : ℤ) (hret : solve_Rota solver inst = some (a, v))
    (s : Staff) (hs : s ∈ inst.staff_list)
    (d : Nat) (hd : d + 1 < inst.num_days) :
    ¬ (a s.doc_id d 2 = true ∧ a s.doc_id (d + 1) 0 = true) := by
  obtain ⟨hsv, -⟩ := solve_Rota_some hret
  have h := ((hsound a hsv).2.2 s hs).2.2.2 d (by omega)
  rintro ⟨h2, h0⟩
  rw [ind, ind, if_pos h2, if_pos h0] at h
  omega

theorem no_clopening_witness :
    ¬ (wAssign 6 0 2 = true ∧ wAssign 6 1 0 = true) :=
  no_clopening (fun _ => some wAssign) wInst wSat_of_ret
    wAssign (objective wStaff 2 wAssign) rfl
    ⟨6, "Fay", "Manager", 40, some false, some []⟩ (by decide) 0 (by decide)

/-- C2: For every WORK_SPECIFIC_SHIFT request whose staff_name matches an
employee in the staff list and whose value parses as `"<date> | <ShiftName>"`
with the date inside the period and the shift name recognized: any schedule
returned by `solve_Rota` assigns that employee that shift on that date; and if
no assignment satisfying all hard constraints exists, `solve_Rota` returns no
schedule — never a schedule omitting the requested shift. -/
theorem work_specific_shift_honored (solver : RotaInstance → Option Assignment)
    (inst : RotaInstance)
    (hsound : ∀ b, solver inst = some b → SatisfiesModel inst b)
    (r : Request) (hr : r ∈ inst.requests_list)
    (htype : r.request_type = "WORK_SPECIFIC_SHIFT")
    (s : Staff)
    (hfind : inst.staff_list.find? (fun t => t.name == r.staff_name) = some s)
    (dp sn : String) (hparse : parseTwo r.value = some (dp, sn))
    (d : Nat)
    (hdate : (dateToDayIdx inst.start_date inst.num_days).lookup dp = some d)
    (sh : Nat) (hshift : SHIFT_NAMES_MAP.lookup sn = some sh) :
    (∀ a v, solve_Rota solver inst = some (a, v) → a s.doc_id d sh = true)
    ∧ ((∀ b, ¬ SatisfiesModel inst b) → solve_Rota solver inst = none) := by
  constructor
  · intro a v hret
    obtain ⟨hsv, -⟩ := solve_Rota_some hret
    obtain ⟨hreq, -, -⟩ := hsound a hsv
    have hcomp : compileRequest inst.staff_list inst.start_date inst.num_days r
        = [ReqConstraint.forceOn s.doc_id d sh] := by
      unfold compileRequest
      rw [hfind, htype, hparse]
      simp [hdate, hshift]
    have hc : ReqConstraint.forceOn s.doc_id d sh ∈ inst.requests_list.flatMap
        (compileRequest inst.staff_list inst.start_date inst.num_days) := by
      rw [List.mem_flatMap]
      exact ⟨r, hr, by rw [hcomp]; exact List.mem_singleton.2 rfl⟩
    exact hreq _ hc
  · intro hno
    cases hs : solver inst with
    | none => unfold solve_Rota; rw [hs]
    | some b => exact absurd (hsound b hs) (hno b)

theorem work_specific_shift_honored_witness : wAssign 1 0 0 = true :=
  (work_specific_shift_honored (fun _ => some wAssign) wInst wSat_of_ret
    ⟨"Ana", "WORK_SPECIFIC_SHIFT", "2025-12-25 | Opening"⟩ (by decide) rfl
    ⟨1, "Ana", "Manager", 40, some false, some ["Opening"]⟩ (by decide)
    "2025-12-25" "Opening" (by decide) 0 (by decide) 0 (by decide)).1
    wAssign (objective wStaff 2 wAssign) rfl

/-- C4: For every raw request, request compilation never raises and never
fails the solve call: a request naming an employee absent from the staff list,
a value that does not parse into the expected shape (wrong delimiter count,
unrecognized weekday or shift name), or a specific date falling outside the
period each contribute zero constraints to the model; every other constraint
of the model is unaffected by such a request.  (Compilation is a total Lean
function, so the no-exception part is inherent in the embedding.) -/
theorem bad_request_adds_no_constraints (inst : RotaInstance) (r : Request)
    (hbad : isBadRequest inst.staff_list inst.start_date inst.num_days r = true)
    (rest : List Request) (a : Assignment) :
    compileRequest inst.staff_list inst.start_date inst.num_days r = []
    ∧ (SatisfiesModel { inst with requests_list := r :: rest } a
        ↔ SatisfiesModel { inst with requests_list := rest } a) := by
  have hc : compileRequest inst.staff_list inst.start_date inst.num_days r = [] := by
    unfold isBadRequest at hbad
    unfold compileRequest
    cases hfind : inst.staff_list.find? (fun s => s.name == r.staff_name) with
    | none => rfl
    | some st =>
      rw [hfind] at hbad
      simp only [Option.isNone_some, Bool.false_or, Bool.or_eq_true,
        Bool.and_eq_true, beq_iff_eq, Option.isNone_iff_eq_none, or_assoc] at hbad
      rcases hbad with ⟨ht, hv⟩ | ⟨ht, hv⟩ | ⟨ht, hv⟩ | ⟨ht, hv⟩
      · rw [ht]
        simp [hv]
      · rw [ht]
        simp_all
      · rw [ht]
        cases hp : parseTwo r.value with
        | none => simp [hp]
        | some pr =>
          obtain ⟨dp, sn⟩ := pr
          rw [hp] at hv
          simp only [Option.isNone_iff_eq_none, Bool.or_eq_true] at hv
          rcases hv with hv | hv
          · simp [hp, hv]
          · cases hdp : (dateToDayIdx inst.start_date inst.num_days).lookup dp <;>
              simp [hp, hv, hdp]
      · rw [ht]
        cases hp : parseTwo r.value with
        | none => simp [hp]
        | some pr =>
          obtain ⟨dn, sn⟩ := pr
          rw [hp] at hv
          simp only [Option.isNone_iff_eq_none, Bool.or_eq_true,
            Bool.not_eq_true'] at hv
          rcases hv with hv | hv
          · have hmem : dn ∉ WEEKDAY_KEYS := by simpa using hv
            simp [hp, hmem]
          · by_cases hdn : dn ∈ WEEKDAY_KEYS
            · simp [hp, hdn, hv]
            · simp [hp, hdn]
  refine ⟨hc, ?_⟩
  unfold SatisfiesModel
  simp only [List.flatMap_cons, hc, List.nil_append]

theorem bad_request_adds_no_constraints_witness :
    compileRequest wStaff 20447 2 ⟨"Zoe", "WORK_SPECIFIC_SHIFT", "2025-12-25 | Opening"⟩ = []
    ∧ (SatisfiesModel { wInst with requests_list :=
          ⟨"Zoe", "WORK_SPECIFIC_SHIFT", "2025-12-25 | Opening"⟩ :: wInst.requests_list }
        wAssign
      ↔ SatisfiesModel { wInst with requests_list := wInst.requests_list } wAssign) :=
  bad_request_adds_no_constraints wInst
    ⟨"Zoe", "WORK_SPECIFIC_SHIFT", "2025-12-25 | Opening"⟩ (by decide)
    wInst.requests_list wAssign

/-- Every constraint a request compiles to is bound to the employee that
`find?` resolved, whatever the request type. -/
theorem compile_sid (staff : List Staff) (start : Int) (nd : Nat) (r : Request)
    (s : Staff)
    (hfind : staff.find? (fun t => t.name == r.staff_name) = some s) :
    ∀ c ∈ compileRequest staff start nd r, c.sid = s.doc_id := by
  intro c hc
  unfold compileRequest at hc
  rw [hfind] at hc
  by_cases h1 : r.request_type = "OFF_SPECIFIC_DATE"
  · rw [h1] at hc
    cases hl : (dateToDayIdx start nd).lookup r.value <;> simp [hl] at hc
    rw [hc]
    rfl
  · by_cases h2 : r.request_type = "OFF_RECURRING_DAY"
    · rw [h2] at hc
      by_cases hw : r.value ∈ WEEKDAY_KEYS
      · simp [h1, hw, List.mem_map] at hc
        obtain ⟨d, -, hceq⟩ := hc
        rw [← hceq]
        rfl
      · simp [h1, hw] at hc
    · by_cases h3 : r.request_type = "WORK_SPECIFIC_SHIFT"
      · rw [h3] at hc
        cases hp : parseTwo r.value with
        | none => simp [hp] at hc
        | some pr =>
          obtain ⟨dp, sn⟩ := pr
          cases hdp : (dateToDayIdx start nd).lookup dp with
          | none => simp [hp, hdp] at hc
          | some d =>
            cases hsn : SHIFT_NAMES_MAP.lookup sn with
            | none => simp [hp, hdp, hsn] at hc
            | some sh =>
              simp [hp, hdp, hsn] at hc
              rw [hc]
              rfl
      · by_cases h4 : r.request_type = "WORK_RECURRING_SHIFT"
        · rw [h4] at hc
          cases hp : parseTwo r.value with
          | none => simp [hp] at hc
          | some pr =>
            obtain ⟨dn, sn⟩ := pr
            by_cases hw : dn ∈ WEEKDAY_KEYS
            · cases hsn : SHIFT_NAMES_MAP.lookup sn with
              | none => simp [hp, hw, hsn] at hc
              | some sh =>
                simp [hp, hw, hsn, List.mem_map] at hc
                obtain ⟨d, -, hceq⟩ := hc
                rw [← hceq]
                rfl
            · simp [hp, hw] at hc
        · simp [h1, h2, h3, h4] at hc

/-- C9: When two or more employees in the staff list share the same name,
every request with that staff_name is resolved to the first matching employee
in list order only; constraints are never applied to the later duplicates, and
which employee is bound is determined solely by staff-list order. -/
theorem duplicate_names_bind_first (l1 : List Staff) (s : Staff) (l2 : List Staff)
    (start : Int) (nd : Nat) (r : Request)
    (hname : s.name = r.staff_name)
    (hfirst : ∀ t ∈ l1, t.name ≠ r.staff_name) :
    compileRequest (l1 ++ s :: l2) start nd r = compileRequest [s] start nd r
    ∧ ∀ c ∈ compileRequest (l1 ++ s :: l2) start nd r, c.sid = s.doc_id := by
  have hfind : (l1 ++ s :: l2).find? (fun t => t.name == r.staff_name) = some s := by
    rw [List.find?_append]
    have h1 : l1.find? (fun t => t.name == r.staff_name) = none :=
      List.find?_eq_none.2 (fun x hx => by simp [hfirst x hx])
    rw [h1]
    simp [hname]
  have hfind2 : ([s] : List Staff).find? (fun t => t.name == r.staff_name) = some s := by
    simp [hname]
  constructor
  · unfold compileRequest
    rw [hfind, hfind2]
  · exact compile_sid _ _ _ _ _ hfind

/-- Two distinct employees sharing the display name "Dup". -/
def dupA : Staff := ⟨1, "Dup", "Staff", 40, some false, some []⟩

def dupB : Staff := ⟨2, "Dup", "Staff", 40, some false, some []⟩

def rDup : Request := ⟨"Dup", "OFF_SPECIFIC_DATE", "2025-12-25"⟩

theorem duplicate_names_bind_first_witness :
    compileRequest [dupA, dupB] 20447 2 rDup = compileRequest [dupA] 20447 2 rDup
    ∧ ReqConstraint.sid (ReqConstraint.forceOffDay 1 0) = 1 :=
  ⟨(duplicate_names_bind_first [] dupA [dupB] 20447 2 rDup rfl (by simp)).1,
   (duplicate_names_bind_first [] dupA [dupB] 20447 2 rDup rfl (by simp)).2
     (ReqConstraint.forceOffDay 1 0) (by decide)⟩

/-- C10: `solve_Rota` is total over employee records missing optional fields:
an employee record lacking the `flexible_hours` key is treated as not flexible
(its PeakLunch and PeakDinner variables are forced to 0 on every day), and a
record lacking `preferred_shifts` (or containing only unrecognized shift-name
strings) contributes zero preference bonus to the objective; the embedding is
total, so no exception arises in either case. -/
theorem missing_optional_fields_defaults (solver : RotaInstance → Option Assignment)
    (inst : RotaInstance)
    (hsound : ∀ b, solver inst = some b → SatisfiesModel inst b)
    (a : Assignment) (v : ℤ) (hret : solve_Rota solver inst = some (a, v))
    (s : Staff) (hs : s ∈ inst.staff_list) :
    (s.flexible_hours = none →
      ∀ d < inst.num_days, a s.doc_id d 3 = false ∧ a s.doc_id d 4 = false)
    ∧ (s.preferred_shifts = none → objPrefsFor inst.num_days a s = 0)
    ∧ ((∀ p ∈ s.preferred_shifts.getD [], PREF_MAP.lookup p = none) →
        objPrefsFor inst.num_days a s = 0) := by
  obtain ⟨hsv, -⟩ := solve_Rota_some hret
  have hst := (hsound a hsv).2.2 s hs
  refine ⟨fun hfh d hd => ?_, fun hp => ?_, fun hp => ?_⟩
  · have h := hst.1 (by rw [hfh]; rfl) d hd
    exact ⟨h 3 (by decide), h 4 (by decide)⟩
  · unfold objPrefsFor
    rw [hp]
    rfl
  · unfold objPrefsFor
    apply List.sum_eq_zero
    intro x hx
    obtain ⟨p, hpm, hpe⟩ := List.mem_map.1 hx
    rw [← hpe, hp p hpm]

theorem missing_optional_fields_defaults_witness :
    (wAssign 2 0 3 = false ∧ wAssign 2 0 4 = false)
    ∧ objPrefsFor 2 wAssign ⟨2, "Bob", "Staff", 40, none, none⟩ = 0 :=
  ⟨(missing_optional_fields_defaults (fun _ => some wAssign) wInst wSat_of_ret
      wAssign (objective wStaff 2 wAssign) rfl
      ⟨2, "Bob", "Staff", 40, none, none⟩ (by decide)).1 rfl 0 (by decide),
   (missing_optional_fields_defaults (fun _ => some wAssign) wInst wSat_of_ret
      wAssign (objective wStaff 2 wAssign) rfl
      ⟨2, "Bob", "Staff", 40, none, none⟩ (by decide)).2.1 rfl⟩

/-! ## Scaled versus unscaled duration sums -/

theorem hours_scaled_cast (sh : Nat) (h : sh < 5) :
    ((SHIFT_HOURS_SCALED sh : ℤ) : ℚ) = SHIFT_HOURS sh * 10 := by
  have e0 : SHIFT_HOURS_SCALED 0 = 75 := by decide
  have e1 : SHIFT_HOURS_SCALED 1 = 85 := by decide
  have e2 : SHIFT_HOURS_SCALED 2 = 80 := by decide
  have e3 : SHIFT_HOURS_SCALED 3 = 40 := by decide
  have e4 : SHIFT_HOURS_SCALED 4 = 40 := by decide
  interval_cases sh <;>
    simp only [e0, e1, e2, e3, e4, SHIFT_HOURS] <;>
    norm_num [Rat.mkRat_eq_div]

theorem if_scaled_cast (c : Prop) [Decidable c] (sh : Nat) (h : sh < 5) :
    ((if c then SHIFT_HOURS_SCALED sh else 0 : ℤ) : ℚ)
      = (if c then SHIFT_HOURS sh else 0) * 10 := by
  by_cases hc : c <;> simp [hc, hours_scaled_cast sh h]

theorem row_scaled (a : Assignment) (sid d : Nat) :
    (SHIFT_INDICES.map (fun sh => if a sid d sh then SHIFT_HOURS sh else 0)).sum * 10
    = ((SHIFT_INDICES.map
        (fun sh => if a sid d sh then SHIFT_HOURS_SCALED sh else 0)).sum : ℚ) := by
  have h : SHIFT_INDICES = [0, 1, 2, 3, 4] := rfl
  rw [h]
  simp only [List.map_cons, List.map_nil, List.sum_cons, List.sum_nil,
    Int.cast_add, Int.cast_zero]
  rw [if_scaled_cast _ 0 (by omega), if_scaled_cast _ 1 (by omega),
    if_scaled_cast _ 2 (by omega), if_scaled_cast _ 3 (by omega),
    if_scaled_cast _ 4 (by omega)]
  ring

theorem rows_scaled (a : Assignment) (d : Nat) (l : List Staff) :
    ((l.map (fun s => (SHIFT_INDICES.map
        (fun sh => if a s.doc_id d sh then SHIFT_HOURS sh else 0)).sum)).sum) * 10
    = ((l.map (fun s => (SHIFT_INDICES.map
        (fun sh => if a s.doc_id d sh then SHIFT_HOURS_SCALED sh else 0)).sum)).sum : ℚ) := by
  induction l with
  | nil => simp
  | cons s t ih =>
    simp only [List.map_cons, List.sum_cons, Int.cast_add]
    rw [add_mul, ih, row_scaled]

theorem dailyCostHours_scaled (staff : List Staff) (a : Assignment) (d : Nat) :
    dailyCostHours staff a d * 10 = (dailyCostScaled staff a d : ℚ) :=
  rows_scaled a d (staff.filter (fun s => !(s.role == "General Manager")))

/-- An all-General-Manager roster: no employee is counted against the daily
budget. -/
def cStaff6 : List Staff :=
  [⟨1, "Ana", "General Manager", 40, some false, some []⟩,
   ⟨2, "Bob", "General Manager", 40, some false, some []⟩,
   ⟨3, "Cal", "General Manager", 40, some false, some []⟩,
   ⟨4, "Dee", "General Manager", 40, some false, some []⟩,
   ⟨5, "Eli", "General Manager", 40, some false, some []⟩,
   ⟨6, "Fay", "General Manager", 40, some false, some []⟩,
   ⟨7, "Gil", "General Manager", 40, some false, some []⟩,
   ⟨8, "Hal", "General Manager", 40, some false, some []⟩]

/-- The all-GM roster against a negative daily budget -1/20: the model's
constraint compares the scaled cost 0 against `int(-0.5) = 0`, so the model is
satisfied even though the (zero) unscaled cost exceeds the negative budget. -/
def cInst6 : RotaInstance :=
  { staff_list := cStaff6
    num_days := 2
    closing_shift_counts := [3, 3, 3, 3, 3, 3, 3]
    daily_budgets := [mkRat (-1) 20, mkRat (-1) 20, mkRat (-1) 20, mkRat (-1) 20,
      mkRat (-1) 20, mkRat (-1) 20, mkRat (-1) 20]
    start_date := 20447
    requests_list := [] }

theorem c6Sat : SatisfiesModel cInst6 wAssign := by decide

/-- Counterexample to C6 as stated: a schedule returned by `solve_Rota` (from
a sound backend valuation) on a day whose configured budget is negative, where
the non-GM duration sum (zero hours) strictly exceeds the day's budget.  The
code compares the scaled cost against `int(budget * 10)`, which truncates
toward zero and therefore rounds a negative fractional budget up to 0. -/
theorem daily_budget_counterexample :
    (∀ b, (fun _ : RotaInstance => some wAssign) cInst6 = some b
      → SatisfiesModel cInst6 b)
    ∧ solve_Rota (fun _ => some wAssign) cInst6
        = some (wAssign, objective cStaff6 2 wAssign)
    ∧ ¬ (dailyCostHours cStaff6 wAssign 0 ≤ cInst6.daily_budgets.getD (0 % 7) 0) := by
  refine ⟨fun b hb => by cases hb; exact c6Sat, rfl, ?_⟩
  decide

/-- C6 (amended): For every schedule returned by `solve_Rota`, for every day
`d` whose configured budget `daily_budgets[d mod 7]` is nonnegative: the sum of
shift durations over all assigned employees whose role is not General Manager
is at most that day's budget; General Manager assignments consume no budget
(they are excluded from the sum).  For negative fractional budgets the claim
fails, because the posted constraint compares against the toward-zero
truncation `int(budget * 10)` — see `daily_budget_counterexample`. -/
theorem daily_budget_respected (solver : RotaInstance → Option Assignment)
    (inst : RotaInstance)
    (hsound : ∀ b, solver inst = some b → SatisfiesModel inst b)
    (a : Assignment) (v : ℤ) (hret : solve_Rota solver inst = some (a, v))
    (d : Nat) (hd : d < inst.num_days)
    (hb : 0 ≤ inst.daily_budgets.getD (d % 7) 0) :
    dailyCostHours inst.staff_list a d ≤ inst.daily_budgets.getD (d % 7) 0 := by
  obtain ⟨hsv, -⟩ := solve_Rota_some hret
  obtain ⟨-, hday, -⟩ := hsound a hsv
  have hcon := (hday d hd).2.2.2.2.2.2.2
  have hcast : (dailyCostScaled inst.staff_list a d : ℚ)
      ≤ (int10 (inst.daily_budgets.getD (d % 7) 0) : ℚ) := by exact_mod_cast hcon
  have hle := le_trans hcast (int10_le_of_nonneg _ hb)
  rw [← dailyCostHours_scaled] at hle
  linarith

theorem daily_budget_respected_witness :
    dailyCostHours wStaff wAssign 0 ≤ wInst.daily_budgets.getD (0 % 7) 0 :=
  daily_budget_respected (fun _ => some wAssign) wInst wSat_of_ret
    wAssign (objective wStaff 2 wAssign) rfl 0 (by decide) (by decide)

/-! ## The preference part of the objective -/

theorem lookup_PREF (p : String) :
    PREF_MAP.lookup p
      = if p = "Opening" then some 0 else if p = "Middle" then some 1
        else if p = "Closing" then some 2 else if p = "Peak_Lunch" then some 3
        else if p = "Peak_Dinner" then some 4 else none := by
  simp only [PREF_MAP, List.lookup]
  by_cases h1 : p = "Opening" <;> by_cases h2 : p = "Middle" <;>
    by_cases h3 : p = "Closing" <;> by_cases h4 : p = "Peak_Lunch" <;>
    by_cases h5 : p = "Peak_Dinner" <;>
    simp_all [beq_false_of_ne]

theorem any_PREF_zero (L : List String) :
    (L.any (fun p => PREF_MAP.lookup p == some 0) = true) ↔ "Opening" ∈ L := by
  rw [List.any_eq_true]
  constructor
  · rintro ⟨p, hp, hb⟩
    rw [lookup_PREF] at hb
    split_ifs at hb with h1 h2 h3 h4 h5 <;> simp_all
  · intro hm
    refine ⟨"Opening", hm, ?_⟩
    rw [lookup_PREF]
    simp

theorem any_PREF_one (L : List String) :
    (L.any (fun p => PREF_MAP.lookup p == some 1) = true) ↔ "Middle" ∈ L := by
  rw [List.any_eq_true]
  constructor
  · rintro ⟨p, hp, hb⟩
    rw [lookup_PREF] at hb
    split_ifs at hb with h1 h2 h3 h4 h5 <;> simp_all
  · intro hm
    refine ⟨"Middle", hm, ?_⟩
    rw [lookup_PREF]
    simp

theorem any_PREF_two (L : List String) :
    (L.any (fun p => PREF_MAP.lookup p == some 2) = true) ↔ "Closing" ∈ L := by
  rw [List.any_eq_true]
  constructor
  · rintro ⟨p, hp, hb⟩
    rw [lookup_PREF] at hb
    split_ifs at hb with h1 h2 h3 h4 h5 <;> simp_all
  · intro hm
    refine ⟨"Closing", hm, ?_⟩
    rw [lookup_PREF]
    simp

theorem any_PREF_three (L : List String) :
    (L.any (fun p => PREF_MAP.lookup p == some 3) = true) ↔ "Peak_Lunch" ∈ L := by
  rw [List.any_eq_true]
  constructor
  · rintro ⟨p, hp, hb⟩
    rw [lookup_PREF] at hb
    split_ifs at hb with h1 h2 h3 h4 h5 <;> simp_all
  · intro hm
    refine ⟨"Peak_Lunch", hm, ?_⟩
    rw [lookup_PREF]
    simp

theorem any_PREF_four (L : List String) :
    (L.any (fun p => PREF_MAP.lookup p == some 4) = true) ↔ "Peak_Dinner" ∈ L := by
  rw [List.any_eq_true]
  constructor
  · rintro ⟨p, hp, hb⟩
    rw [lookup_PREF] at hb
    split_ifs at hb with h1 h2 h3 h4 h5 <;> simp_all
  · intro hm
    refine ⟨"Peak_Dinner", hm, ?_⟩
    rw [lookup_PREF]
    simp

theorem indicator_and (b B : Bool) (P : Prop) [Decidable P] (hB : (B = true) ↔ P) :
    (if (b && B) = true then (1 : ℤ) else 0) = if P then (if b = true then 1 else 0) else 0 := by
  by_cases hp : P
  · have hBt : B = true := hB.2 hp
    cases b <;> simp [hBt, hp]
  · have hBf : B = false := Bool.eq_false_iff.2 (fun h => hp (hB.1 h))
    simp [hBf, hp]

theorem length_filter5 (p : Nat → Bool) :
    ((SHIFT_INDICES.filter p).length : ℤ)
      = (if p 0 = true then 1 else 0) + (if p 1 = true then 1 else 0)
        + (if p 2 = true then 1 else 0) + (if p 3 = true then 1 else 0)
        + (if p 4 = true then 1 else 0) := by
  have h : SHIFT_INDICES = [0, 1, 2, 3, 4] := rfl
  rw [h]
  by_cases h0 : p 0 = true <;> by_cases h1 : p 1 = true <;> by_cases h2 : p 2 = true <;>
    by_cases h3 : p 3 = true <;> by_cases h4 : p 4 = true <;>
    simp [h0, h1, h2, h3, h4, List.filter_cons]

theorem pref_day_count (a : Assignment) (sid d : Nat) (L : List String) :
    ((SHIFT_INDICES.filter (fun sh => a sid d sh
        && L.any (fun p => PREF_MAP.lookup p == some sh))).length : ℤ)
      = (if "Opening" ∈ L then ind a sid d 0 else 0)
        + (if "Middle" ∈ L then ind a sid d 1 else 0)
        + (if "Closing" ∈ L then ind a sid d 2 else 0)
        + (if "Peak_Lunch" ∈ L then ind a sid d 3 else 0)
        + (if "Peak_Dinner" ∈ L then ind a sid d 4 else 0) := by
  rw [length_filter5]
  rw [indicator_and _ _ _ (any_PREF_zero L), indicator_and _ _ _ (any_PREF_one L),
    indicator_and _ _ _ (any_PREF_two L), indicator_and _ _ _ (any_PREF_three L),
    indicator_and _ _ _ (any_PREF_four L)]
  rfl

theorem sum_ite_const {P : Prop} [Decidable P] (l : List Nat) (f : Nat → ℤ) :
    (l.map (fun d => if P then f d else 0)).sum = if P then (l.map f).sum else 0 := by
  by_cases hp : P <;> simp [hp]

theorem pref_days_sum (a : Assignment) (sid nd : Nat) (L : List String) :
    ((List.range nd).map (fun d => ((SHIFT_INDICES.filter (fun sh => a sid d sh
        && L.any (fun p => PREF_MAP.lookup p == some sh))).length : ℤ))).sum
      = (if "Opening" ∈ L
          then ((List.range nd).map (fun d => ind a sid d 0)).sum else 0)
        + (if "Middle" ∈ L
          then ((List.range nd).map (fun d => ind a sid d 1)).sum else 0)
        + (if "Closing" ∈ L
          then ((List.range nd).map (fun d => ind a sid d 2)).sum else 0)
        + (if "Peak_Lunch" ∈ L
          then ((List.range nd).map (fun d => ind a sid d 3)).sum else 0)
        + (if "Peak_Dinner" ∈ L
          then ((List.range nd).map (fun d => ind a sid d 4)).sum else 0) := by
  have hcongr : (List.range nd).map (fun d => ((SHIFT_INDICES.filter
      (fun sh => a sid d sh
        && L.any (fun p => PREF_MAP.lookup p == some sh))).length : ℤ))
      = (List.range nd).map (fun d =>
          (if "Opening" ∈ L then ind a sid d 0 else 0)
          + (if "Middle" ∈ L then ind a sid d 1 else 0)
          + (if "Closing" ∈ L then ind a sid d 2 else 0)
          + (if "Peak_Lunch" ∈ L then ind a sid d 3 else 0)
          + (if "Peak_Dinner" ∈ L then ind a sid d 4 else 0)) :=
    List.map_congr_left (fun d _ => pref_day_count a sid d L)
  rw [hcongr, List.sum_map_add, List.sum_map_add, List.sum_map_add, List.sum_map_add,
    sum_ite_const, sum_ite_const, sum_ite_const, sum_ite_const, sum_ite_const]

theorem pref_left_counts (a : Assignment) (sid nd : Nat) (L : List String) :
    (L.map (fun p => match PREF_MAP.lookup p with
        | some p_idx => ((List.range nd).map (fun d => ind a sid d p_idx)).sum
        | none => 0)).sum
      = (L.count "Opening" : ℤ) * ((List.range nd).map (fun d => ind a sid d 0)).sum
        + (L.count "Middle" : ℤ) * ((List.range nd).map (fun d => ind a sid d 1)).sum
        + (L.count "Closing" : ℤ) * ((List.range nd).map (fun d => ind a sid d 2)).sum
        + (L.count "Peak_Lunch" : ℤ)
            * ((List.range nd).map (fun d => ind a sid d 3)).sum
        + (L.count "Peak_Dinner" : ℤ)
            * ((List.range nd).map (fun d => ind a sid d 4)).sum := by
  induction L with
  | nil => simp
  | cons p t ih =>
    rw [List.map_cons, List.sum_cons, ih, lookup_PREF p]
    by_cases h1 : p = "Opening"
    · subst h1
      simp only [if_pos rfl, List.count_cons]
      simp
      ring
    · by_cases h2 : p = "Middle"
      · subst h2
        simp only [List.count_cons]
        simp [beq_false_of_ne h1]
        ring
      · by_cases h3 : p = "Closing"
        · subst h3
          simp only [List.count_cons]
          simp [beq_false_of_ne h1, beq_false_of_ne h2]
          ring
        · by_cases h4 : p = "Peak_Lunch"
          · subst h4
            simp only [List.count_cons]
            simp [beq_false_of_ne h1, beq_false_of_ne h2, beq_false_of_ne h3]
            ring
          · by_cases h5 : p = "Peak_Dinner"
            · subst h5
              simp only [List.count_cons]
              simp [beq_false_of_ne h1, beq_false_of_ne h2, beq_false_of_ne h3,
                beq_false_of_ne h4]
              ring
            · simp only [List.count_cons]
              simp [h1, h2, h3, h4, h5, beq_false_of_ne h1, beq_false_of_ne h2,
                beq_false_of_ne h3, beq_false_of_ne h4, beq_false_of_ne h5]

theorem pref_sum_eq (a : Assignment) (sid nd : Nat) (L : List String)
    (hL : L.Nodup) :
    (L.map (fun p => match PREF_MAP.lookup p with
        | some p_idx => ((List.range nd).map (fun d => ind a sid d p_idx)).sum
        | none => 0)).sum
      = ((List.range nd).map (fun d => ((SHIFT_INDICES.filter (fun sh => a sid d sh
          && L.any (fun p => PREF_MAP.lookup p == some sh))).length : ℤ))).sum := by
  rw [pref_left_counts, pref_days_sum]
  have hcount : ∀ k : String, (L.count k : ℤ) = if k ∈ L then 1 else 0 := by
    intro k
    by_cases hk : k ∈ L
    · rw [List.count_eq_one_of_mem hL hk, if_pos hk]
      rfl
    · rw [List.count_eq_zero_of_not_mem hk, if_neg hk]
      rfl
  have hmul : ∀ (P : Prop) (inst : Decidable P) (S : ℤ),
      (if P then (1 : ℤ) else 0) * S = if P then S else 0 := by
    intro P inst S
    by_cases hp : P <;> simp [hp]
  rw [hcount, hcount, hcount, hcount, hcount, hmul, hmul, hmul, hmul, hmul]

theorem objPrefsFor_nodup (nd : Nat) (a : Assignment) (s : Staff)
    (h : (s.preferred_shifts.getD []).Nodup) :
    objPrefsFor nd a s = ((List.range nd).map (fun d =>
      ((SHIFT_INDICES.filter (fun sh => a s.doc_id d sh
        && (s.preferred_shifts.getD []).any
          (fun p => PREF_MAP.lookup p == some sh))).length : ℤ))).sum := by
  unfold objPrefsFor
  exact pref_sum_eq a s.doc_id nd _ h

theorem obj_prefs_nodup (staff : List Staff) (nd : Nat) (a : Assignment)
    (h : ∀ s ∈ staff, (s.preferred_shifts.getD []).Nodup) :
    obj_prefs staff nd a = prefBonusSpec staff nd a := by
  unfold obj_prefs prefBonusSpec
  exact congrArg List.sum
    (List.map_congr_left (fun s hs => objPrefsFor_nodup nd a s (h s hs)))

theorem specCell (a : Assignment) (sid d sh : Nat) (h : sh < 5) :
    (ind a sid d sh : ℚ) * (10 * SHIFT_HOURS sh)
      = ((if a sid d sh then SHIFT_HOURS_SCALED sh else 0 : ℤ) : ℚ) := by
  cases hb : a sid d sh <;> simp [ind, hb, hours_scaled_cast sh h]
  ring

theorem specRow (a : Assignment) (sid d : Nat) :
    (SHIFT_INDICES.map (fun sh => (ind a sid d sh : ℚ) * (10 * SHIFT_HOURS sh))).sum
      = ((SHIFT_INDICES.map
          (fun sh => if a sid d sh then SHIFT_HOURS_SCALED sh else 0)).sum : ℚ) := by
  have h : SHIFT_INDICES = [0, 1, 2, 3, 4] := rfl
  rw [h]
  simp only [List.map_cons, List.map_nil, List.sum_cons, List.sum_nil,
    Int.cast_add, Int.cast_zero]
  rw [specCell a sid d 0 (by omega), specCell a sid d 1 (by omega),
    specCell a sid d 2 (by omega), specCell a sid d 3 (by omega),
    specCell a sid d 4 (by omega)]

theorem specDays (a : Assignment) (sid : Nat) (l : List Nat) :
    (l.map (fun d => (SHIFT_INDICES.map
        (fun sh => (ind a sid d sh : ℚ) * (10 * SHIFT_HOURS sh))).sum)).sum
      = ((l.map (fun d => (SHIFT_INDICES.map
          (fun sh => if a sid d sh then SHIFT_HOURS_SCALED sh else 0)).sum)).sum : ℚ) := by
  induction l with
  | nil => simp
  | cons d t ih =>
    simp only [List.map_cons, List.sum_cons, Int.cast_add]
    rw [ih, specRow]

theorem specStaff (a : Assignment) (nd : Nat) (l : List Staff) :
    (l.map (fun s => ((List.range nd).map (fun d => (SHIFT_INDICES.map
        (fun sh => (ind a s.doc_id d sh : ℚ) * (10 * SHIFT_HOURS sh))).sum)).sum)).sum
      = ((l.map (fun s => totalHoursScaled a s.doc_id nd)).sum : ℚ) := by
  induction l with
  | nil => simp
  | cons s t ih =>
    simp only [List.map_cons, List.sum_cons, Int.cast_add]
    rw [ih, specDays]
    rfl

theorem objectiveSpec_eq_int (staff : List Staff) (nd : Nat) (a : Assignment) :
    objectiveSpec staff nd a
      = ((obj_hours staff nd a + 20 * prefBonusSpec staff nd a : ℤ) : ℚ) := by
  unfold objectiveSpec obj_hours
  rw [specStaff]
  push_cast
  ring

/-- The eight-employee roster of `wInst`, except that Ana's preferred-shift
list contains the entry "Opening" twice. -/
def cStaff5 : List Staff :=
  [⟨1, "Ana", "Manager", 40, some false, some ["Opening", "Opening"]⟩,
   ⟨2, "Bob", "Staff", 40, none, none⟩,
   ⟨3, "Cal", "Staff", 40, some false, some []⟩,
   ⟨4, "Dee", "Staff", 40, some false, some []⟩,
   ⟨5, "Eli", "Staff", 40, some false, some []⟩,
   ⟨6, "Fay", "Manager", 40, some false, some []⟩,
   ⟨7, "Gil", "Staff", 40, some false, some []⟩,
   ⟨8, "Hal", "Staff", 40, some false, some []⟩]

def cInst5 : RotaInstance :=
  { staff_list := cStaff5
    num_days := 2
    closing_shift_counts := [3, 3, 3, 3, 3, 3, 3]
    daily_budgets := [100, 100, 100, 100, 100, 100, 100]
    start_date := 20447
    requests_list := [] }

theorem c5Sat : SatisfiesModel cInst5 wAssign := by decide

/-- Counterexample to C5 as stated: on a roster in which one employee's
`preferred_shifts` list contains "Opening" twice, a schedule returned by
`solve_Rota` carries objective value 1350 (the duplicate is counted twice),
while the claim's set-semantics formula yields 1310. -/
theorem objective_set_semantics_counterexample :
    (∀ b, (fun _ : RotaInstance => some wAssign) cInst5 = some b
      → SatisfiesModel cInst5 b)
    ∧ solve_Rota (fun _ => some wAssign) cInst5
        = some (wAssign, objective cStaff5 2 wAssign)
    ∧ ¬ ((objective cStaff5 2 wAssign : ℚ) = objectiveSpec cStaff5 2 wAssign) := by
  refine ⟨fun b hb => by cases hb; exact c5Sat, rfl, ?_⟩
  rw [objectiveSpec_eq_int]
  intro hEq
  have h2 : objective cStaff5 2 wAssign
      = obj_hours cStaff5 2 wAssign + 20 * prefBonusSpec cStaff5 2 wAssign := by
    exact_mod_cast hEq
  exact absurd h2 (by decide)

/-- C5 (amended): Provided every employee's `preferred_shifts` list is free of
duplicates, the objective maximized by `solve_Rota` equals the sum over all
(employee, day, shift) of `assignedVariable × (10 × shift duration in hours)`
plus `20 ×` the count, over (employee, day), of assigned shifts whose type
appears in that employee's `preferredShiftTypes` (as a set, order irrelevant).
When a recognized preference entry is duplicated, the code counts it once per
occurrence, so the claim fails as stated — see
`objective_set_semantics_counterexample`. -/
theorem objective_formula_nodup (solver : RotaInstance → Option Assignment)
    (inst : RotaInstance)
    (_hsound : ∀ b, solver inst = some b → SatisfiesModel inst b)
    (a : Assignment) (v : ℤ) (hret : solve_Rota solver inst = some (a, v))
    (hnd : ∀ s ∈ inst.staff_list, (s.preferred_shifts.getD []).Nodup) :
    (v : ℚ) = objectiveSpec inst.staff_list inst.num_days a := by
  obtain ⟨-, hv⟩ := solve_Rota_some hret
  subst hv
  rw [objectiveSpec_eq_int]
  unfold objective
  rw [obj_prefs_nodup inst.staff_list inst.num_days a hnd]
  push_cast
  ring

theorem objective_formula_nodup_witness :
    ((objective wStaff 2 wAssign : ℤ) : ℚ) = objectiveSpec wStaff 2 wAssign :=
  objective_formula_nodup (fun _ => some wAssign) wInst wSat_of_ret wAssign
    (objective wStaff 2 wAssign) rfl (by decide)
